import Mathlib

/-!
Verification of the rust-selectors library (src/specificity.rs and
src/parser.rs) against its specification.

The Rust code is shallowly embedded: machine integers (u32) become Nat with
explicit wrapping (% 2 ^ 32) where the Rust operation can overflow, fallible
code returns Option (none models Err(()) and panics), and the token stream of
the external cssparser collaborator is modelled as a list of tokens, with the
cursor position being the remaining suffix of the list.
-/

/-! ## src/specificity.rs -/

/-- Models the constant MAX_10BIT: u32 = (1u32 << 10) - 1. -/
def MAX_10BIT : Nat := (1 <<< 10) - 1

/-- Wrapping u32 addition, the release-mode semantics of + on u32 in Rust. -/
def u32add (a b : Nat) : Nat := (a + b) % 2 ^ 32

/-- Wrapping u32 left shift: the shift amount is masked modulo the bit width
and the result is truncated to 32 bits, the release-mode semantics of << on
u32 in Rust. -/
def u32shl (a s : Nat) : Nat := (a <<< (s % 32)) % 2 ^ 32

/-- Models pub struct Specificity(u32), the packed three-tier specificity. -/
structure Specificity where
  val : Nat
deriving DecidableEq, Repr

/-- Models struct UnpackedSpecificity with its three u32 counters. -/
structure UnpackedSpecificity where
  id_selectors : Nat
  class_like_selectors : Nat
  element_selectors : Nat
deriving DecidableEq, Repr

/-- Models impl Add for Specificity (specificity.rs lines 19-24), faithfully
to Rust operator precedence: in the source expression
self.0 & MAX_10BIT << 20 + rhs.0 & MAX_10BIT << 20
the + binds tighter than <<, which binds tighter than &, so it parses as
(self.0 & (MAX_10BIT << (20 + rhs.0))) & (MAX_10BIT << 20), and similarly for
the other two tiers (for the lowest tier, (self.0 & (MAX_10BIT + rhs.0)) &
MAX_10BIT). The shifts and the additions 20 + rhs.0, 10 + rhs.0 and
MAX_10BIT + rhs.0 are u32 operations and wrap. -/
def Specificity.add (a b : Specificity) : Specificity :=
  ⟨min ((a.val &&& u32shl MAX_10BIT (u32add 20 b.val)) &&& (MAX_10BIT <<< 20)) (MAX_10BIT <<< 20)
    ||| min ((a.val &&& u32shl MAX_10BIT (u32add 10 b.val)) &&& (MAX_10BIT <<< 10)) (MAX_10BIT <<< 10)
    ||| min ((a.val &&& u32add MAX_10BIT b.val) &&& MAX_10BIT) MAX_10BIT⟩

instance : Add Specificity := ⟨Specificity.add⟩

/-- Models impl Default for Specificity. -/
def Specificity.zero : Specificity := ⟨0⟩

/-- Models UnpackedSpecificity::new. -/
def UnpackedSpecificity.new (id_selectors class_like_selectors element_selectors : Nat) :
    UnpackedSpecificity :=
  ⟨id_selectors, class_like_selectors, element_selectors⟩

/-- Models impl Add for UnpackedSpecificity: elementwise u32 addition of the
three counters, with no saturation (wrapping at 2 ^ 32 like u32). -/
def UnpackedSpecificity.add (a b : UnpackedSpecificity) : UnpackedSpecificity :=
  ⟨u32add a.id_selectors b.id_selectors,
   u32add a.class_like_selectors b.class_like_selectors,
   u32add a.element_selectors b.element_selectors⟩

instance : Add UnpackedSpecificity := ⟨UnpackedSpecificity.add⟩

/-- Models impl Default for UnpackedSpecificity. -/
def UnpackedSpecificity.zero : UnpackedSpecificity := ⟨0, 0, 0⟩

/-- Models impl From UnpackedSpecificity for Specificity (specificity.rs
lines 79-87): clamp each counter at MAX_10BIT, then pack them into one u32
as (id << 20) | (class_like << 10) | element. -/
def Specificity.fromUnpacked (u : UnpackedSpecificity) : Specificity :=
  ⟨(min u.id_selectors MAX_10BIT) <<< 20
    ||| (min u.class_like_selectors MAX_10BIT) <<< 10
    ||| min u.element_selectors MAX_10BIT⟩

/-- Models impl From Specificity for UnpackedSpecificity (specificity.rs
lines 89-98): the id tier is the value shifted right by 20 (with no mask, as
in the source), the class-like tier is (value >> 10) & MAX_10BIT, and the
element tier is value & MAX_10BIT. -/
def UnpackedSpecificity.fromSpecificity (s : Specificity) : UnpackedSpecificity :=
  ⟨s.val >>> 20, (s.val >>> 10) &&& MAX_10BIT, s.val &&& MAX_10BIT⟩

/-! ## src/parser.rs: data model -/

/-- Models enum Combinator. -/
inductive Combinator where
  | Child
  | Descendant
  | NextSibling
  | LaterSibling
deriving DecidableEq, Repr

/-- Models enum CaseSensitivity. -/
inductive CaseSensitivity where
  | CaseSensitive
  | CaseInsensitive
deriving DecidableEq, Repr

/-- Interned name atoms and namespace urls are opaque interned strings in the
source (string_cache::Atom, string_cache::Namespace); they are modelled as
plain strings. -/
abbrev Atom := String

abbrev NamespaceUrl := String

/-- Models ns!(), the empty (no-namespace) namespace atom. -/
def nsEmpty : NamespaceUrl := ""

/-- Lowercases one char exactly when it is an ASCII uppercase letter, like
char::to_ascii_lowercase. -/
def asciiLowerChar (c : Char) : Char :=
  if 65 ≤ c.toNat ∧ c.toNat ≤ 90 then Char.ofNat (c.toNat + 32) else c

/-- Models str::to_ascii_lowercase, mapping asciiLowerChar over the
characters of the string. -/
def asciiLower (s : String) : String := ⟨s.data.map asciiLowerChar⟩

/-- Models str::eq_ignore_ascii_case. -/
def eqIgnoreAsciiCase (a b : String) : Bool := asciiLower a = asciiLower b

/-- Models struct LocalName. -/
structure LocalName where
  name : Atom
  lower_name : Atom
deriving DecidableEq, Repr

/-- Models enum NamespaceConstraint. -/
inductive NamespaceConstraint where
  | Any
  | Specific (ns : NamespaceUrl)
deriving DecidableEq, Repr

/-- Models struct AttrSelector. -/
structure AttrSelector where
  name : Atom
  lower_name : Atom
  namespace_ : NamespaceConstraint
deriving DecidableEq, Repr

/-- Models struct ParserContext. The namespace-prefix registry (an external
hash map populated by the caller) is modelled as an association list with
distinct keys, looked up with List.lookup. -/
structure ParserContext where
  in_user_agent_stylesheet : Bool
  default_namespace : Option NamespaceUrl
  namespace_prefixes : List (String × NamespaceUrl)

/-- Models ParserContext::new. -/
def ParserContext.new : ParserContext :=
  ⟨false, none, []⟩

/-- Models the tokens of the external cssparser tokenizer that parser.rs
consumes (spec section 6). Nested blocks carry their contents, so that
parse_nested_block can run a sub-parser on them; the other constructor
stands for any further token kind the tokenizer can produce (the parser
treats all of them uniformly as non-matching). -/
inductive Token where
  | ident (s : String)
  | idHash (s : String)
  | quotedString (s : String)
  | delim (c : Char)
  | whiteSpace
  | colon
  | comma
  | includeMatch
  | dashMatch
  | prefixMatch
  | substringMatch
  | suffixMatch
  | squareBracketBlock (contents : List Token)
  | function (name : String) (args : List Token)
  | other

/-- Models the host capability contract (trait SelectorImpl): the two
host-supplied resolvers, over the host pseudo-class type P and host
pseudo-element type E. parse_nth models the external An+B formula sub-parser
collaborator of cssparser (spec section 6), which is consumed but not defined
by this library; it returns the parsed (a, b) pair and the rest of the
stream, or fails. -/
structure SelectorImpl (P E : Type) where
  parse_non_ts_pseudo_class : ParserContext → String → Option P
  parse_pseudo_element : ParserContext → String → Option E
  parse_nth : List Token → Option ((Int × Int) × List Token)

mutual
/-- Models struct ComplexSelector: a compound selector plus an optional link
to the complex selector structurally to the left of it, tagged with the
combinator joining them. -/
inductive ComplexSelector (P : Type) where
  | mk (compound_selector : List (SimpleSelector P)) (next : Option (ComplexSelector P × Combinator))

/-- Models enum SimpleSelector. -/
inductive SimpleSelector (P : Type) where
  | ID (a : Atom)
  | Class (a : Atom)
  | LocalName (n : LocalName)
  | Namespace (ns : NamespaceUrl)
  | AttrExists (attr : AttrSelector)
  | AttrEqual (attr : AttrSelector) (value : String) (cs : CaseSensitivity)
  | AttrIncludes (attr : AttrSelector) (value : String)
  | AttrDashMatch (attr : AttrSelector) (value : String) (dashing_value : String)
  | AttrPrefixMatch (attr : AttrSelector) (value : String)
  | AttrSubstringMatch (attr : AttrSelector) (value : String)
  | AttrSuffixMatch (attr : AttrSelector) (value : String)
  | Negation (alts : List (ComplexSelector P))
  | FirstChild
  | LastChild
  | OnlyChild
  | Root
  | Empty
  | NthChild (a b : Int)
  | NthLastChild (a b : Int)
  | NthOfType (a b : Int)
  | NthLastOfType (a b : Int)
  | FirstOfType
  | LastOfType
  | OnlyOfType
  | NonTSPseudoClass (p : P)
end

/-- Projection for the compound_selector field of ComplexSelector. -/
def ComplexSelector.compound_selector {P : Type} : ComplexSelector P → List (SimpleSelector P)
  | .mk c _ => c

/-- Projection for the next field of ComplexSelector. -/
def ComplexSelector.next {P : Type} : ComplexSelector P → Option (ComplexSelector P × Combinator)
  | .mk _ n => n

/-- Models struct Selector: the parsed complex selector, the optional host
pseudo-element, and the packed specificity computed at construction time. -/
structure Selector (P E : Type) where
  complex_selector : ComplexSelector P
  pseudo_element : Option E
  specificity : Specificity

/-! ## src/parser.rs: specificity computation -/

/-- Models the lexicographic strict order of the derived Ord instance on
UnpackedSpecificity, which compares the fields in declaration order:
id_selectors, then class_like_selectors, then element_selectors. -/
def UnpackedSpecificity.ltB (a b : UnpackedSpecificity) : Bool :=
  if a.id_selectors < b.id_selectors then true
  else if b.id_selectors < a.id_selectors then false
  else if a.class_like_selectors < b.class_like_selectors then true
  else if b.class_like_selectors < a.class_like_selectors then false
  else a.element_selectors < b.element_selectors

/-- Models Iterator::max over the derived Ord of UnpackedSpecificity: None on
an empty iterator, otherwise a fold that keeps the later element when two
compare equal. -/
def iterMax : List UnpackedSpecificity → Option UnpackedSpecificity
  | [] => none
  | x :: xs => some (xs.foldl (fun acc y => if UnpackedSpecificity.ltB y acc then acc else y) x)

mutual
/-- Models fn complex_selector_specificity (parser.rs lines 163-219): start
from a default accumulator, fold the head compound selector into it, then
walk the next chain leftward folding each compound selector in. The result
is Option because the Negation case of compound_selector_specificity calls
unwrap on an iterator maximum, which panics when the alternatives list is
empty; none models that panic. -/
def complex_selector_specificity {P : Type} : ComplexSelector P → Option UnpackedSpecificity
  | .mk compound next =>
    match compound_selector_specificity compound UnpackedSpecificity.zero with
    | none => none
    | some s => chain_specificity next s

/-- Models the loop at parser.rs lines 208-217 that follows the next links
and accumulates each compound selector into the running specificity. -/
def chain_specificity {P : Type} :
    Option (ComplexSelector P × Combinator) → UnpackedSpecificity → Option UnpackedSpecificity
  | none, s => some s
  | some (.mk compound next, _), s =>
    match compound_selector_specificity compound s with
    | none => none
    | some s2 => chain_specificity next s2

/-- Models fn compound_selector_specificity (parser.rs lines 166-203): each
simple selector adds one to its tier (LocalName to the element tier, ID to
the id tier, classes, attribute selectors and all pseudo-classes to the
class-like tier, Namespace to none), except Negation, which computes the
specificity of every alternative and adds the maximum of those to the
accumulator; the unwrap on that maximum is modelled by propagating none. -/
def compound_selector_specificity {P : Type} :
    List (SimpleSelector P) → UnpackedSpecificity → Option UnpackedSpecificity
  | [], s => some s
  | ss :: rest, s =>
    match ss with
    | .LocalName _ => compound_selector_specificity rest
        { s with element_selectors := u32add s.element_selectors 1 }
    | .ID _ => compound_selector_specificity rest
        { s with id_selectors := u32add s.id_selectors 1 }
    | .Class _ => compound_selector_specificity rest
        { s with class_like_selectors := u32add s.class_like_selectors 1 }
    | .AttrExists _ => compound_selector_specificity rest
        { s with class_like_selectors := u32add s.class_like_selectors 1 }
    | .AttrEqual _ _ _ => compound_selector_specificity rest
        { s with class_like_selectors := u32add s.class_like_selectors 1 }
    | .AttrIncludes _ _ => compound_selector_specificity rest
        { s with class_like_selectors := u32add s.class_like_selectors 1 }
    | .AttrDashMatch _ _ _ => compound_selector_specificity rest
        { s with class_like_selectors := u32add s.class_like_selectors 1 }
    | .AttrPrefixMatch _ _ => compound_selector_specificity rest
        { s with class_like_selectors := u32add s.class_like_selectors 1 }
    | .AttrSubstringMatch _ _ => compound_selector_specificity rest
        { s with class_like_selectors := u32add s.class_like_selectors 1 }
    | .AttrSuffixMatch _ _ => compound_selector_specificity rest
        { s with class_like_selectors := u32add s.class_like_selectors 1 }
    | .FirstChild => compound_selector_specificity rest
        { s with class_like_selectors := u32add s.class_like_selectors 1 }
    | .LastChild => compound_selector_specificity rest
        { s with class_like_selectors := u32add s.class_like_selectors 1 }
    | .OnlyChild => compound_selector_specificity rest
        { s with class_like_selectors := u32add s.class_like_selectors 1 }
    | .Root => compound_selector_specificity rest
        { s with class_like_selectors := u32add s.class_like_selectors 1 }
    | .Empty => compound_selector_specificity rest
        { s with class_like_selectors := u32add s.class_like_selectors 1 }
    | .NthChild _ _ => compound_selector_specificity rest
        { s with class_like_selectors := u32add s.class_like_selectors 1 }
    | .NthLastChild _ _ => compound_selector_specificity rest
        { s with class_like_selectors := u32add s.class_like_selectors 1 }
    | .NthOfType _ _ => compound_selector_specificity rest
        { s with class_like_selectors := u32add s.class_like_selectors 1 }
    | .NthLastOfType _ _ => compound_selector_specificity rest
        { s with class_like_selectors := u32add s.class_like_selectors 1 }
    | .FirstOfType => compound_selector_specificity rest
        { s with class_like_selectors := u32add s.class_like_selectors 1 }
    | .LastOfType => compound_selector_specificity rest
        { s with class_like_selectors := u32add s.class_like_selectors 1 }
    | .OnlyOfType => compound_selector_specificity rest
        { s with class_like_selectors := u32add s.class_like_selectors 1 }
    | .NonTSPseudoClass _ => compound_selector_specificity rest
        { s with class_like_selectors := u32add s.class_like_selectors 1 }
    | .Namespace _ => compound_selector_specificity rest s
    | .Negation negated =>
      match negation_specificities negated with
      | none => none
      | some l =>
        match iterMax l with
        | none => none
        | some m => compound_selector_specificity rest (s + m)

/-- Models the iterator negated.iter().map(complex_selector_specificity)
once it has been fully consumed by max: the list of the alternatives'
specificities, with an inner panic propagated as none. -/
def negation_specificities {P : Type} : List (ComplexSelector P) → Option (List UnpackedSpecificity)
  | [] => some []
  | c :: rest =>
    match complex_selector_specificity c, negation_specificities rest with
    | some v, some l => some (v :: l)
    | _, _ => none
end

/-- Models fn specificity (parser.rs lines 152-161): compute the unpacked
specificity of the complex selector, add one element-tier unit when a
pseudo-element is present, and pack. -/
def specificity {P E : Type} (complex : ComplexSelector P) (pseudo_element : Option E) :
    Option Specificity :=
  match complex_selector_specificity complex with
  | none => none
  | some u =>
    let u := if pseudo_element.isSome then
        { u with element_selectors := u32add u.element_selectors 1 }
      else u
    some (Specificity.fromUnpacked u)

/-! ## src/parser.rs: token stream helpers

The cssparser Parser is modelled as the list of remaining tokens: position()
returns the current list and reset(p) restores it, so a parse function is a
function from the token list to an optional result paired with the rest of
the list. -/

/-- Models fn skip_whitespace (parser.rs lines 656-664): consume tokens while
they are whitespace, leaving the cursor before the first non-whitespace
token. -/
def skip_whitespace : List Token → List Token
  | .whiteSpace :: rest => skip_whitespace rest
  | toks => toks

/-- Models Parser::next, which skips whitespace (and comments, which are not
modelled) and returns the next token, or Err at the end of the input. -/
def nextToken (toks : List Token) : Option (Token × List Token) :=
  match skip_whitespace toks with
  | [] => none
  | t :: rest => some (t, rest)

/-- Models Parser::expect_exhausted, as used by parse_nested_block and
parse_until_before: the input is exhausted when next() fails, i.e. when only
whitespace remains. -/
def exhausted (toks : List Token) : Bool :=
  match skip_whitespace toks with
  | [] => true
  | _ :: _ => false

/-- Splits a delimited token stream at the first top-level comma, as
Delimiter::Comma does in cssparser: returns the tokens before the comma and,
when a comma was found, the tokens after it. Commas nested inside block
tokens are carried inside those tokens and are not split points. -/
def splitAtComma : List Token → List Token × Option (List Token)
  | [] => ([], none)
  | .comma :: rest => ([], some rest)
  | t :: rest =>
    let (chunk, after) := splitAtComma rest
    (t :: chunk, after)

/-- Models Parser::parse_comma_separated: run the closure on the tokens up to
the next top-level comma, require that it consume them (up to trailing
whitespace, per expect_exhausted), and iterate over the remaining
comma-separated chunks; on an input without commas the closure runs exactly
once, so an empty input still invokes it on an empty stream. The comma loop
is given fuel because its iteration count is not structural; each iteration
consumes at least the comma, so any fuel larger than the token count is
enough. -/
def parse_comma_separated {α : Type} (f : List Token → Option (α × List Token)) :
    Nat → List Token → Option (List α)
  | 0, _ => none
  | fuel + 1, toks =>
    let (chunk, after) := splitAtComma toks
    match f chunk with
    | none => none
    | some (v, leftover) =>
      if exhausted leftover then
        match after with
        | none => some [v]
        | some rest =>
          match parse_comma_separated f fuel rest with
          | none => none
          | some vs => some (v :: vs)
      else none

/-! ## src/parser.rs: parse functions

A Rust Result of Option, like Ok(None) versus Ok(Some(v)) versus Err(()), is
modelled as Option (Option v): none is Err, some none is the restore-and-let-
the-caller-branch outcome, some (some v) is success. -/

/-- Models fn parse_qualified_name (parser.rs lines 379-443). Dispatches on
the first token: an identifier optionally followed by a pipe and an explicit
namespace, a star optionally followed by a pipe, a bare pipe for the
explicit no-namespace form, and anything else restores the cursor and
reports not-a-qualified-name. In attribute-selector position a bare
identifier takes the empty namespace instead of the default namespace, and a
bare star is a hard failure. -/
def parse_qualified_name (context : ParserContext) (in_attr_selector : Bool)
    (toks : List Token) :
    Option (Option (NamespaceConstraint × Option String) × List Token) :=
  let default_namespace := fun (local_name : Option String) (rest : List Token) =>
    let namespace_ := match context.default_namespace with
      | some ns => NamespaceConstraint.Specific ns
      | none => NamespaceConstraint.Any
    some (some (namespace_, local_name), rest)
  let explicit_namespace := fun (toks2 : List Token) (namespace_ : NamespaceConstraint) =>
    match toks2 with
    | .delim c :: rest =>
      if c == '*' && !in_attr_selector then some (some (namespace_, none), rest) else none
    | .ident local_name :: rest => some (some (namespace_, some local_name), rest)
    | _ => none
  match toks with
  | .ident value :: rest =>
    let after_bare_ident := fun (_ : Unit) =>
      if in_attr_selector then
        some (some (NamespaceConstraint.Specific nsEmpty, some value), rest)
      else
        default_namespace (some value) rest
    match rest with
    | .delim c :: rest2 =>
      if c == '|' then
        match context.namespace_prefixes.lookup value with
        | none => none
        | some result => explicit_namespace rest2 (NamespaceConstraint.Specific result)
      else after_bare_ident ()
    | _ => after_bare_ident ()
  | .delim c :: rest =>
    if c == '*' then
      let after_bare_star := fun (_ : Unit) =>
        if in_attr_selector then none
        else default_namespace none rest
      match rest with
      | .delim c2 :: rest2 =>
        if c2 == '|' then explicit_namespace rest2 NamespaceConstraint.Any
        else after_bare_star ()
      | _ => after_bare_star ()
    else if c == '|' then
      explicit_namespace rest (NamespaceConstraint.Specific nsEmpty)
    else
      some (none, toks)
  | _ => some (none, toks)

/-- Models fn parse_type_selector (parser.rs lines 350-374): resolve a
qualified name outside attribute-selector position and emit zero, one or two
simple selectors: a Namespace selector for a specific namespace constraint,
then a LocalName selector when a local name (rather than a universal star)
was given. -/
def parse_type_selector {P : Type} (context : ParserContext) (toks : List Token) :
    Option (Option (List (SimpleSelector P)) × List Token) :=
  match parse_qualified_name context false toks with
  | none => none
  | some (none, _) => some (none, toks)
  | some (some (namespace_, local_name), rest) =>
    let compound_selector : List (SimpleSelector P) :=
      (match namespace_ with
        | NamespaceConstraint.Specific ns => [SimpleSelector.Namespace ns]
        | NamespaceConstraint.Any => [])
      ++ (match local_name with
        | some name => [SimpleSelector.LocalName ⟨name, asciiLower name⟩]
        | none => [])
    some (some compound_selector, rest)

/-- Models fn parse_value inside parse_attribute_selector:
Parser::expect_ident_or_string. -/
def parse_value (toks : List Token) : Option (String × List Token) :=
  match nextToken toks with
  | some (.ident s, rest) => some (s, rest)
  | some (.quotedString s, rest) => some (s, rest)
  | _ => none

/-- Models fn parse_attribute_flags (parser.rs lines 498-506): end of input
means case-sensitive, an identifier equal to i (ASCII-case-insensitively)
means case-insensitive, anything else is a hard failure. -/
def parse_attribute_flags (toks : List Token) : Option (CaseSensitivity × List Token) :=
  match nextToken toks with
  | none => some (CaseSensitivity.CaseSensitive, skip_whitespace toks)
  | some (.ident value, rest) =>
    if eqIgnoreAsciiCase value "i" then some (CaseSensitivity.CaseInsensitive, rest)
    else none
  | some _ => none

/-- Models fn parse_attribute_selector (parser.rs lines 446-495): resolve the
attribute qualified name in attribute-selector position (a not-a-qualified-
name outcome is promoted to a hard failure, and a universal local name is
unreachable there, modelled as none), then dispatch on the operator token.
The DashMatch case also stores the value with a dash appended. -/
def parse_attribute_selector {P : Type} (context : ParserContext) (toks : List Token) :
    Option (SimpleSelector P × List Token) :=
  match parse_qualified_name context true toks with
  | none => none
  | some (none, _) => none
  | some (some (_, none), _) => none
  | some (some (namespace_, some local_name), rest) =>
    let attr : AttrSelector :=
      { namespace_ := namespace_
        lower_name := asciiLower local_name
        name := local_name }
    match nextToken rest with
    | none => some (SimpleSelector.AttrExists attr, skip_whitespace rest)
    | some (.delim '=', rest2) =>
      match parse_value rest2 with
      | none => none
      | some (value, rest3) =>
        match parse_attribute_flags rest3 with
        | none => none
        | some (flags, rest4) => some (SimpleSelector.AttrEqual attr value flags, rest4)
    | some (.includeMatch, rest2) =>
      match parse_value rest2 with
      | none => none
      | some (value, rest3) => some (SimpleSelector.AttrIncludes attr value, rest3)
    | some (.dashMatch, rest2) =>
      match parse_value rest2 with
      | none => none
      | some (value, rest3) =>
        let dashing_value := value ++ "-"
        some (SimpleSelector.AttrDashMatch attr value dashing_value, rest3)
    | some (.prefixMatch, rest2) =>
      match parse_value rest2 with
      | none => none
      | some (value, rest3) => some (SimpleSelector.AttrPrefixMatch attr value, rest3)
    | some (.substringMatch, rest2) =>
      match parse_value rest2 with
      | none => none
      | some (value, rest3) => some (SimpleSelector.AttrSubstringMatch attr value, rest3)
    | some (.suffixMatch, rest2) =>
      match parse_value rest2 with
      | none => none
      | some (value, rest3) => some (SimpleSelector.AttrSuffixMatch attr value, rest3)
    | some _ => none

/-- Models fn is_legacy_pseudo_element (parser.rs lines 646-654). -/
def is_legacy_pseudo_element (name : String) : Bool :=
  eqIgnoreAsciiCase name "before" || eqIgnoreAsciiCase name "after"
    || eqIgnoreAsciiCase name "first-line" || eqIgnoreAsciiCase name "first-letter"

/-- Models fn parse_simple_pseudo_class (parser.rs lines 598-610): the fixed
tree-structural pseudo-classes matched ASCII-case-insensitively, with every
other name delegated to the host resolver. -/
def parse_simple_pseudo_class {P E : Type} (impl : SelectorImpl P E) (context : ParserContext)
    (name : String) : Option (SimpleSelector P) :=
  let n := asciiLower name
  if n = "first-child" then some SimpleSelector.FirstChild
  else if n = "last-child" then some SimpleSelector.LastChild
  else if n = "only-child" then some SimpleSelector.OnlyChild
  else if n = "root" then some SimpleSelector.Root
  else if n = "empty" then some SimpleSelector.Empty
  else if n = "first-of-type" then some SimpleSelector.FirstOfType
  else if n = "last-of-type" then some SimpleSelector.LastOfType
  else if n = "only-of-type" then some SimpleSelector.OnlyOfType
  else (impl.parse_non_ts_pseudo_class context name).map SimpleSelector.NonTSPseudoClass

/-- Models fn parse_pseudo_element (parser.rs lines 617-644): without a
leading colon, restore the cursor and report not-a-pseudo-element; after the
colon, a bare identifier is passed to the host resolver only when it is a
legacy CSS2.1 pseudo-element name, a second colon must be followed by an
identifier that is passed to the host resolver, and every other shape is a
hard failure. -/
def parse_pseudo_element {P E : Type} (impl : SelectorImpl P E) (context : ParserContext)
    (toks : List Token) : Option (Option E × List Token) :=
  match toks with
  | .colon :: rest =>
    match rest with
    | .ident name :: rest2 =>
      if is_legacy_pseudo_element name then
        match impl.parse_pseudo_element context name with
        | none => none
        | some pe => some (some pe, rest2)
      else none
    | .colon :: rest2 =>
      match rest2 with
      | .ident name :: rest3 =>
        match impl.parse_pseudo_element context name with
        | none => none
        | some pe => some (some pe, rest3)
      | _ => none
    | _ => none
  | _ => some (none, toks)

/-- Models fn parse_nth_pseudo_class (parser.rs lines 531-535), delegating to
the external An+B sub-parser supplied by the host record. -/
def parse_nth_pseudo_class {P E : Type} (impl : SelectorImpl P E)
    (selector : Int → Int → SimpleSelector P) (toks : List Token) :
    Option (SimpleSelector P × List Token) :=
  match impl.parse_nth toks with
  | none => none
  | some ((a, b), rest) => some (selector a b, rest)

/-- Models fn parse_negation (parser.rs lines 508-513): a comma-separated
list of complex selectors, parsed with the complex-selector parser pcs (the
recursive descent at the enclosing fuel), wrapped into a Negation simple
selector. parse_comma_separated consumes the whole delimited input, so the
remaining stream is empty. -/
def parse_negation {P : Type}
    (pcs : List Token → Option (ComplexSelector P × List Token)) (fuel : Nat)
    (toks : List Token) : Option (SimpleSelector P × List Token) :=
  match parse_comma_separated pcs fuel toks with
  | none => none
  | some alts => some (SimpleSelector.Negation alts, [])

/-- Models fn parse_functional_pseudo_class (parser.rs lines 515-528),
matching the function name ASCII-case-insensitively. -/
def parse_functional_pseudo_class {P E : Type} (impl : SelectorImpl P E)
    (pcs : List Token → Option (ComplexSelector P × List Token)) (fuel : Nat)
    (name : String) (toks : List Token) : Option (SimpleSelector P × List Token) :=
  let n := asciiLower name
  if n = "nth-child" then parse_nth_pseudo_class impl SimpleSelector.NthChild toks
  else if n = "nth-of-type" then parse_nth_pseudo_class impl SimpleSelector.NthOfType toks
  else if n = "nth-last-child" then parse_nth_pseudo_class impl SimpleSelector.NthLastChild toks
  else if n = "nth-last-of-type" then
    parse_nth_pseudo_class impl SimpleSelector.NthLastOfType toks
  else if n = "not" then parse_negation pcs fuel toks
  else none

/-- Models fn parse_one_simple_selector (parser.rs lines 543-596). The
outcome some (none, toks) restores the cursor to the entry position and lets
the caller try another production; none is a hard failure. A square-bracket
block and a functional pseudo-class run their sub-parser on the nested block
contents through parse_nested_block, which also demands that the contents be
exhausted. -/
def parse_one_simple_selector {P E : Type} (impl : SelectorImpl P E) (context : ParserContext)
    (pcs : List Token → Option (ComplexSelector P × List Token)) (fuel : Nat)
    (toks : List Token) : Option (Option (SimpleSelector P) × List Token) :=
  match toks with
  | .idHash id :: rest => some (some (SimpleSelector.ID id), rest)
  | .delim '.' :: rest =>
    match rest with
    | .ident cls :: rest2 => some (some (SimpleSelector.Class cls), rest2)
    | _ => none
  | .squareBracketBlock contents :: rest =>
    match parse_attribute_selector context contents with
    | none => none
    | some (attr, leftover) =>
      if exhausted leftover then some (some attr, rest) else none
  | .colon :: rest =>
    match rest with
    | .ident name :: rest2 =>
      match parse_simple_pseudo_class impl context name with
      | some pseudo_class => some (some pseudo_class, rest2)
      | none => some (none, toks)
    | .function name args :: rest2 =>
      match parse_functional_pseudo_class impl pcs fuel name args with
      | none => none
      | some (pseudo, leftover) =>
        if exhausted leftover then some (some pseudo, rest2) else none
    | .colon :: _ => some (none, toks)
    | _ => none
  | _ => some (none, toks)

/-- Models the loop of fn parse_compound_selector (parser.rs lines 338-343):
keep invoking the simple-selector parser p1 until it reports not-a-simple-
selector, accumulating the parsed simple selectors in order. The iteration
count is bounded by fuel. -/
def compound_loop {P : Type}
    (p1 : List Token → Option (Option (SimpleSelector P) × List Token)) :
    Nat → List (SimpleSelector P) → List Token →
    Option (List (SimpleSelector P) × List Token)
  | 0, _, _ => none
  | fuel + 1, acc, toks =>
    match p1 toks with
    | none => none
    | some (none, rest) => some (acc, rest)
    | some (some s, rest) => compound_loop p1 fuel (acc ++ [s]) rest

/-- Models fn parse_compound_selector (parser.rs lines 332-345): an optional
leading type selector (contributing zero, one or two simple selectors),
then the simple-selector loop. -/
def parse_compound_selector {P E : Type} (impl : SelectorImpl P E) (context : ParserContext)
    (pcs : List Token → Option (ComplexSelector P × List Token)) (fuel : Nat)
    (toks : List Token) : Option (List (SimpleSelector P) × List Token) :=
  match parse_type_selector context toks with
  | none => none
  | some (opt, rest) =>
    compound_loop (parse_one_simple_selector impl context pcs fuel) fuel
      (opt.getD []) rest

/-- Models the inner combinator-search loop of fn parse_complex_selector
(parser.rs lines 281-308): consume whitespace while remembering that it was
seen; a greater-than, plus or tilde delimiter is an explicit combinator; the
end of the input ends the chain; any other token is left unconsumed (the
cursor is reset to just before it) and yields the implicit Descendant
combinator when whitespace was seen, or ends the chain otherwise. -/
def find_combinator : List Token → Bool → Option Combinator × List Token
  | [], _ => (none, [])
  | .whiteSpace :: rest, _ => find_combinator rest true
  | .delim '>' :: rest, _ => (some Combinator.Child, rest)
  | .delim '+' :: rest, _ => (some Combinator.NextSibling, rest)
  | .delim '~' :: rest, _ => (some Combinator.LaterSibling, rest)
  | toks, any_whitespace => (if any_whitespace then some Combinator.Descendant else none, toks)

/-- Models the outer loop of fn parse_complex_selector (parser.rs lines
277-321): find the next combinator (ending the chain when there is none),
parse the following compound selector with pcompound, and prepend the result
to the chain through the next link; an empty compound selector ends the loop
after being linked in. The iteration count is bounded by fuel. -/
def complex_loop {P : Type}
    (pcompound : List Token → Option (List (SimpleSelector P) × List Token)) :
    Nat → ComplexSelector P → List Token → Option (ComplexSelector P × List Token)
  | 0, _, _ => none
  | fuel + 1, complex, toks =>
    match find_combinator toks false with
    | (none, rest) => some (complex, rest)
    | (some combinator, rest) =>
      let rest := if combinator ≠ Combinator.Descendant then skip_whitespace rest else rest
      match pcompound rest with
      | none => none
      | some (compound, rest2) =>
        let complex2 := ComplexSelector.mk compound (some (complex, combinator))
        if compound.isEmpty then some (complex2, rest2)
        else complex_loop pcompound fuel complex2 rest2

/-- Models fn parse_complex_selector (parser.rs lines 267-323): skip leading
whitespace, parse the first compound selector, return immediately when it is
empty, and otherwise run the combinator loop. The structural fuel bounds the
loop iteration counts and the nesting depth of negations; the recursive
descent used inside negations is this same parser at the decremented
fuel. -/
def parse_complex_selector {P E : Type} (impl : SelectorImpl P E) (context : ParserContext) :
    Nat → List Token → Option (ComplexSelector P × List Token)
  | 0, _ => none
  | fuel + 1, toks =>
    let pcs := fun t => parse_complex_selector impl context fuel t
    let toks2 := skip_whitespace toks
    match parse_compound_selector impl context pcs fuel toks2 with
    | none => none
    | some (compound, rest) =>
      let complex := ComplexSelector.mk compound none
      if compound.isEmpty then some (complex, rest)
      else complex_loop (parse_compound_selector impl context pcs fuel) fuel complex rest
termination_by structural fuel _ => fuel

/-- Models fn parse_selector (parser.rs lines 243-259): a complex selector,
then an optional pseudo-element; the parse fails when both the rightmost
compound selector and the pseudo-element are absent. The specificity is
computed at construction; its panic path (the unwrap inside the negation
maximum) is propagated as a failure, and is proved unreachable. -/
def parse_selector {P E : Type} (impl : SelectorImpl P E) (context : ParserContext)
    (fuel : Nat) (toks : List Token) : Option (Selector P E × List Token) :=
  match parse_complex_selector impl context fuel toks with
  | none => none
  | some (complex, rest) =>
    match parse_pseudo_element impl context rest with
    | none => none
    | some (pseudo_element, rest2) =>
      if !complex.compound_selector.isEmpty || pseudo_element.isSome then
        match specificity complex pseudo_element with
        | none => none
        | some s =>
          some ({ complex_selector := complex
                  pseudo_element := pseudo_element
                  specificity := s }, rest2)
      else none

/-- Models fn parse_selector_list (parser.rs lines 233-237): a comma-
separated list of selectors; any failing selector aborts the whole list. -/
def parse_selector_list {P E : Type} (impl : SelectorImpl P E) (context : ParserContext)
    (fuel : Nat) (toks : List Token) : Option (List (Selector P E)) :=
  parse_comma_separated (parse_selector impl context fuel) fuel toks

/-- Models fn parse_author_origin_selector_list_from_str (parser.rs lines
223-228), applied to an already tokenized input: parse with a fresh
author-origin context. -/
def parse_author_origin_selector_list {P E : Type} (impl : SelectorImpl P E)
    (fuel : Nat) (toks : List Token) : Option (List (Selector P E)) :=
  parse_selector_list impl ParserContext.new fuel toks

/-! ## The DummySelectorImpl host (parser.rs test module), used for concrete
evaluations -/

/-- Models the test host pseudo-class enum PseudoClass. -/
inductive PseudoClass where
  | ServoNonZeroBorder
deriving DecidableEq, Repr

/-- Models the test host pseudo-element enum PseudoElement. -/
inductive PseudoElement where
  | Before
  | After
deriving DecidableEq, Repr

/-- Models impl SelectorImpl for DummySelectorImpl from the test module:
-servo-nonzero-border is recognized only in user-agent stylesheets, and the
pseudo-elements before and after are recognized case-insensitively. The
external An+B sub-parser is left unused (always failing) since no concrete
evaluation in this development involves an nth pseudo-class. -/
def DummySelectorImpl : SelectorImpl PseudoClass PseudoElement :=
  { parse_non_ts_pseudo_class := fun context name =>
      if eqIgnoreAsciiCase name "-servo-nonzero-border" then
        if context.in_user_agent_stylesheet then some PseudoClass.ServoNonZeroBorder
        else none
      else none
    parse_pseudo_element := fun _ name =>
      if eqIgnoreAsciiCase name "before" then some PseudoElement.Before
      else if eqIgnoreAsciiCase name "after" then some PseudoElement.After
      else none
    parse_nth := fun _ => none }

/-! ## Invariant predicates about parsed selector trees -/

/-- Holds when every node of the next chain, the head included, has a
nonempty compound selector. -/
def chainAllNonempty {P : Type} : ComplexSelector P → Bool
  | .mk c none => !c.isEmpty
  | .mk c (some (n, _)) => !c.isEmpty && chainAllNonempty n

/-- Holds when every node of the next chain except the head (that is, every
node strictly to the left of the rightmost compound) has a nonempty compound
selector. -/
def tailAllNonempty {P : Type} : ComplexSelector P → Bool
  | .mk _ none => true
  | .mk _ (some (n, _)) => chainAllNonempty n

mutual
/-- Holds when every Negation simple selector anywhere inside the complex
selector (in any compound of the chain, at any negation nesting depth) has a
nonempty alternatives list. -/
def negOkComplex {P : Type} : ComplexSelector P → Bool
  | .mk c next => negOkList c && negOkNext next

/-- negOkComplex lifted over the optional next link. -/
def negOkNext {P : Type} : Option (ComplexSelector P × Combinator) → Bool
  | none => true
  | some (n, _) => negOkComplex n

/-- negOkSimple for every simple selector of a compound selector. -/
def negOkList {P : Type} : List (SimpleSelector P) → Bool
  | [] => true
  | s :: rest => negOkSimple s && negOkList rest

/-- Holds when the simple selector is not a Negation with an empty
alternatives list, recursively inside its alternatives. -/
def negOkSimple {P : Type} : SimpleSelector P → Bool
  | .Negation alts => !alts.isEmpty && negOkAlts alts
  | _ => true

/-- negOkComplex for every alternative of a negation. -/
def negOkAlts {P : Type} : List (ComplexSelector P) → Bool
  | [] => true
  | c :: rest => negOkComplex c && negOkAlts rest
end

/-- Helper for stating side conditions: the token stream starts with a pipe
delimiter (the namespace separator). -/
def startsWithPipe : List Token → Bool
  | .delim c :: _ => c == '|'
  | _ => false

/-- Helper for stating side conditions: the token stream starts with a colon
token. -/
def startsWithColon : List Token → Bool
  | .colon :: _ => true
  | _ => false

/-- Helper for stating side conditions: the token stream starts with an
identifier token. -/
def startsWithIdent : List Token → Bool
  | .ident _ :: _ => true
  | _ => false

/-! # Theorems -/

/-! ## Packing and unpacking arithmetic (helper lemmas) -/

/-- Helper: the packed value written with bitwise or and shifts equals the
plain base-1024 digit expression, because the three clamped tiers occupy
disjoint bit ranges. -/
theorem fromUnpacked_val (u : UnpackedSpecificity) :
    (Specificity.fromUnpacked u).val =
      min u.id_selectors 1023 * 1048576 + min u.class_like_selectors 1023 * 1024
        + min u.element_selectors 1023 := by
  have hx : min u.id_selectors 1023 ≤ 1023 := Nat.min_le_right _ _
  have hy : min u.class_like_selectors 1023 ≤ 1023 := Nat.min_le_right _ _
  have hz : min u.element_selectors 1023 ≤ 1023 := Nat.min_le_right _ _
  show (min u.id_selectors 1023) <<< 20 ||| (min u.class_like_selectors 1023) <<< 10
      ||| min u.element_selectors 1023 = _
  set x := min u.id_selectors 1023
  set y := min u.class_like_selectors 1023
  set z := min u.element_selectors 1023
  rw [Nat.shiftLeft_eq, Nat.shiftLeft_eq, Nat.mul_comm x, Nat.mul_comm y]
  have h1 : 2 ^ 10 * y < 2 ^ 20 := by
    have := Nat.mul_le_mul_left (2 ^ 10) hy
    omega
  rw [← Nat.mul_add_lt_is_or h1]
  have e3 : 2 ^ 20 * x + 2 ^ 10 * y = 2 ^ 10 * (2 ^ 10 * x + y) := by ring
  rw [e3]
  have h2 : z < 2 ^ 10 := by omega
  rw [← Nat.mul_add_lt_is_or h2]

/-- Helper: unpacking a packed specificity recovers the three counters, each
clamped at 1023. -/
theorem unpack_fromUnpacked (u : UnpackedSpecificity) :
    UnpackedSpecificity.fromSpecificity (Specificity.fromUnpacked u)
      = ⟨min u.id_selectors 1023, min u.class_like_selectors 1023,
         min u.element_selectors 1023⟩ := by
  have hv := fromUnpacked_val u
  unfold UnpackedSpecificity.fromSpecificity
  congr 1
  · rw [Nat.shiftRight_eq_div_pow, hv]
    omega
  · rw [show MAX_10BIT = 2 ^ 10 - 1 from rfl, Nat.and_pow_two_sub_one_eq_mod,
        Nat.shiftRight_eq_div_pow, hv]
    omega
  · rw [show MAX_10BIT = 2 ^ 10 - 1 from rfl, Nat.and_pow_two_sub_one_eq_mod, hv]
    omega

/-! ## C1: packed addition versus unpack-add-pack -/

/-- C1: the claim states that the Add implementation on Specificity equals
unpacking both operands, adding the counters elementwise, and packing with
per-tier saturation. The code instead adds the packed integers with a
masked-shift expression whose Rust operator precedence differs from the
intended one, so already at the packed operands a = b = Specificity(1)
(both packing the counters (0, 0, 1)) the code returns Specificity(0) while
the unpack-add-pack composition prescribed by the spec returns
Specificity(2); the spec is the clear intent (its design notes call this
exact masked-shift addition out as a known bug), so the code is wrong. -/
theorem c1_packed_add_diverges_from_unpack_add_pack :
    ((⟨1⟩ : Specificity) + ⟨1⟩) = ⟨0⟩
    ∧ Specificity.fromUnpacked
        (UnpackedSpecificity.fromSpecificity ⟨1⟩ + UnpackedSpecificity.fromSpecificity ⟨1⟩)
      = ⟨2⟩
    ∧ ((⟨1⟩ : Specificity) + ⟨1⟩)
      ≠ Specificity.fromUnpacked
          (UnpackedSpecificity.fromSpecificity ⟨1⟩ + UnpackedSpecificity.fromSpecificity ⟨1⟩) := by
  refine ⟨rfl, rfl, ?_⟩
  decide

/-! ## C4: round trip and per-tier clamping -/

/-- C4: unpacking after packing is the identity when every counter is in
[0, 1023], and in general recovers each counter clamped at 1023
independently, so a tier that exceeds 1023 saturates without altering the
other two tiers. -/
theorem c4_pack_unpack_roundtrip (u : UnpackedSpecificity) :
    (u.id_selectors ≤ 1023 → u.class_like_selectors ≤ 1023 → u.element_selectors ≤ 1023 →
      UnpackedSpecificity.fromSpecificity (Specificity.fromUnpacked u) = u)
    ∧ UnpackedSpecificity.fromSpecificity (Specificity.fromUnpacked u)
        = ⟨min u.id_selectors 1023, min u.class_like_selectors 1023,
           min u.element_selectors 1023⟩ := by
  refine ⟨fun h1 h2 h3 => ?_, unpack_fromUnpacked u⟩
  rw [unpack_fromUnpacked]
  obtain ⟨a, b, c⟩ := u
  simp only at h1 h2 h3
  simp only [UnpackedSpecificity.mk.injEq]
  omega

/-- Witness for C4 at the concrete counters (2, 1025, 3): the bounded
round trip is the identity at (2, 3, 1), and the clamping equation applies
at (2, 1025, 3), where only the class-like tier saturates. -/
theorem c4_pack_unpack_roundtrip_witness :
    UnpackedSpecificity.fromSpecificity (Specificity.fromUnpacked ⟨2, 3, 1⟩) = ⟨2, 3, 1⟩
    ∧ UnpackedSpecificity.fromSpecificity (Specificity.fromUnpacked ⟨2, 1025, 3⟩)
      = ⟨2, 1023, 3⟩ :=
  ⟨(c4_pack_unpack_roundtrip ⟨2, 3, 1⟩).1 (by decide) (by decide) (by decide),
   (c4_pack_unpack_roundtrip ⟨2, 1025, 3⟩).2⟩

/-! ## C5: the packed order is lexicographic -/

/-- C5: on counters in the unsaturated range [0, 1023], comparing the packed
u32 values is exactly the lexicographic comparison of the triples
(id_selectors, class_like_selectors, element_selectors), and packed equality
is exactly triple equality. -/
theorem c5_packed_order_lexicographic (a b : UnpackedSpecificity)
    (ha1 : a.id_selectors ≤ 1023) (ha2 : a.class_like_selectors ≤ 1023)
    (ha3 : a.element_selectors ≤ 1023)
    (hb1 : b.id_selectors ≤ 1023) (hb2 : b.class_like_selectors ≤ 1023)
    (hb3 : b.element_selectors ≤ 1023) :
    ((Specificity.fromUnpacked a).val < (Specificity.fromUnpacked b).val ↔
      (a.id_selectors < b.id_selectors ∨
        (a.id_selectors = b.id_selectors ∧
          (a.class_like_selectors < b.class_like_selectors ∨
            (a.class_like_selectors = b.class_like_selectors ∧
              a.element_selectors < b.element_selectors)))))
    ∧ ((Specificity.fromUnpacked a).val = (Specificity.fromUnpacked b).val ↔ a = b) := by
  have hva := fromUnpacked_val a
  have hvb := fromUnpacked_val b
  obtain ⟨a1, a2, a3⟩ := a
  obtain ⟨b1, b2, b3⟩ := b
  simp only at ha1 ha2 ha3 hb1 hb2 hb3 hva hvb ⊢
  rw [hva, hvb]
  constructor
  · omega
  · rw [UnpackedSpecificity.mk.injEq]
    omega

/-- Witness for C5: one id selector outweighs three class-like selectors. -/
theorem c5_packed_order_lexicographic_witness :
    (Specificity.fromUnpacked ⟨0, 3, 0⟩).val < (Specificity.fromUnpacked ⟨1, 0, 0⟩).val :=
  ((c5_packed_order_lexicographic ⟨0, 3, 0⟩ ⟨1, 0, 0⟩ (by decide) (by decide) (by decide)
      (by decide) (by decide) (by decide)).1).mpr (Or.inl (by decide))

/-! ## Behavior of parse_qualified_name on a bare identifier (helper) -/

/-- Helper: on a bare identifier (one not followed by a pipe), the qualified
name resolver applies the empty namespace in attribute-selector position and
the default namespace otherwise, and consumes exactly the identifier. -/
theorem parse_qualified_name_bare_ident (context : ParserContext) (in_attr_selector : Bool)
    (name : String) (rest : List Token) (hpipe : startsWithPipe rest = false) :
    parse_qualified_name context in_attr_selector (Token.ident name :: rest)
      = some (some
          ((if in_attr_selector then NamespaceConstraint.Specific nsEmpty
            else match context.default_namespace with
              | some ns => NamespaceConstraint.Specific ns
              | none => NamespaceConstraint.Any), some name), rest) := by
  cases rest with
  | nil => cases in_attr_selector <;> rfl
  | cons t r =>
    cases t <;> try (cases in_attr_selector <;> rfl)
    rename_i c
    have hc : (c == '|') = false := by simpa [startsWithPipe] using hpipe
    cases in_attr_selector <;> simp [parse_qualified_name, hc]

/-! ## C6: the default namespace applies to type selectors, never inside
attribute selectors -/

/-- C6: with a default namespace X set in the context, resolving a bare
(unprefixed) attribute name inside an attribute selector yields the empty
no-namespace constraint, not X, while parsing the same bare name as a type
selector prepends a Namespace X simple selector before the LocalName
selector. -/
theorem c6_default_namespace_attr_exception (P : Type) (context : ParserContext)
    (X : NamespaceUrl) (name : String) (rest : List Token)
    (hdns : context.default_namespace = some X)
    (hpipe : startsWithPipe rest = false) :
    parse_qualified_name context true (Token.ident name :: rest)
      = some (some (NamespaceConstraint.Specific nsEmpty, some name), rest)
    ∧ parse_type_selector (P := P) context (Token.ident name :: rest)
      = some (some [SimpleSelector.Namespace X,
                    SimpleSelector.LocalName ⟨name, asciiLower name⟩], rest) := by
  constructor
  · rw [parse_qualified_name_bare_ident context true name rest hpipe]
    simp
  · unfold parse_type_selector
    rw [parse_qualified_name_bare_ident context false name rest hpipe, hdns]
    simp

/-- Witness for C6: with default namespace mathml, the attribute name Foo
resolves to the empty namespace while the type selector e receives a
Namespace mathml selector. -/
theorem c6_default_namespace_attr_exception_witness :
    parse_qualified_name
        { in_user_agent_stylesheet := false
          default_namespace := some "http://www.w3.org/1998/Math/MathML"
          namespace_prefixes := [] } true [Token.ident "Foo"]
      = some (some (NamespaceConstraint.Specific nsEmpty, some "Foo"), [])
    ∧ parse_type_selector (P := PseudoClass)
        { in_user_agent_stylesheet := false
          default_namespace := some "http://www.w3.org/1998/Math/MathML"
          namespace_prefixes := [] } [Token.ident "e"]
      = some (some [SimpleSelector.Namespace "http://www.w3.org/1998/Math/MathML",
                    SimpleSelector.LocalName ⟨"e", "e"⟩], []) :=
  ⟨(c6_default_namespace_attr_exception PseudoClass _ "http://www.w3.org/1998/Math/MathML"
      "Foo" [] rfl rfl).1,
   (c6_default_namespace_attr_exception PseudoClass _ "http://www.w3.org/1998/Math/MathML"
      "e" [] rfl rfl).2⟩

/-! ## C7: lookahead functions leave the cursor untouched on the
not-applicable outcome -/

/-- C7: whenever parse_qualified_name, parse_one_simple_selector or
parse_pseudo_element reports the not-applicable outcome (Ok(None)), the
returned cursor equals the entry cursor, for every context, host, recursive
sub-parser, fuel and input stream. -/
theorem c7_lookahead_restores_cursor :
    (∀ (context : ParserContext) (in_attr_selector : Bool) (toks out : List Token),
        parse_qualified_name context in_attr_selector toks = some (none, out) →
        out = toks)
    ∧ (∀ (P E : Type) (impl : SelectorImpl P E) (context : ParserContext)
        (pcs : List Token → Option (ComplexSelector P × List Token)) (fuel : Nat)
        (toks out : List Token),
        parse_one_simple_selector impl context pcs fuel toks = some (none, out) →
        out = toks)
    ∧ (∀ (P E : Type) (impl : SelectorImpl P E) (context : ParserContext)
        (toks out : List Token),
        parse_pseudo_element impl context toks = some (none, out) →
        out = toks) := by
  refine ⟨?_, ?_, ?_⟩
  · intro context in_attr_selector toks out h
    dsimp only [parse_qualified_name] at h
    repeat' split at h
    all_goals simp_all
  · intro P E impl context pcs fuel toks out h
    dsimp only [parse_one_simple_selector] at h
    repeat' split at h
    all_goals simp_all
  · intro P E impl context toks out h
    dsimp only [parse_pseudo_element] at h
    repeat' split at h
    all_goals simp_all

/-- Witness for C7: the theorem applied to a concrete not-applicable run of
parse_qualified_name on a comma-headed stream, which leaves the stream
unchanged. -/
theorem c7_lookahead_restores_cursor_witness :
    parse_qualified_name ParserContext.new false [Token.comma] = some (none, [Token.comma])
    ∧ ([Token.comma] : List Token) = [Token.comma] :=
  ⟨rfl, c7_lookahead_restores_cursor.1 ParserContext.new false [Token.comma] [Token.comma] rfl⟩

/-! ## C8: shape of parse_pseudo_element -/

/-- C8 counterexample: the claim says a bare identifier after the committed
colon is accepted as a pseudo-element exactly when it is a legacy CSS2.1
name, accepted directly. With the test host (which resolves only before and
after), the legacy name first-line is a hard failure, because the code also
delegates legacy names to the host resolver instead of accepting them
directly. -/
theorem c8_counterexample_legacy_name_still_delegated :
    is_legacy_pseudo_element "first-line" = true
    ∧ parse_pseudo_element DummySelectorImpl ParserContext.new
        [Token.colon, Token.ident "first-line"] = none :=
  ⟨rfl, rfl⟩

/-- C8 amended: without a leading colon the function reports not-applicable
without consuming input; after the committed colon, a bare identifier is
considered only when it is a legacy CSS2.1 name (otherwise it is a hard
failure), and its name is then delegated to the host resolver exactly like
the double-colon form, so it is accepted precisely when it is legacy and the
host resolves it; a second colon must be followed by an identifier delegated
to the host resolver; every other token shape after the committed colon is a
hard failure, never a not-applicable outcome. -/
theorem c8_pseudo_element_shape :
    (∀ (P E : Type) (impl : SelectorImpl P E) (context : ParserContext) (toks : List Token),
        startsWithColon toks = false →
        parse_pseudo_element impl context toks = some (none, toks))
    ∧ (∀ (P E : Type) (impl : SelectorImpl P E) (context : ParserContext)
        (name : String) (rest : List Token),
        is_legacy_pseudo_element name = false →
        parse_pseudo_element impl context (Token.colon :: Token.ident name :: rest) = none)
    ∧ (∀ (P E : Type) (impl : SelectorImpl P E) (context : ParserContext)
        (name : String) (rest : List Token),
        is_legacy_pseudo_element name = true →
        parse_pseudo_element impl context (Token.colon :: Token.ident name :: rest)
          = (impl.parse_pseudo_element context name).map (fun pe => (some pe, rest)))
    ∧ (∀ (P E : Type) (impl : SelectorImpl P E) (context : ParserContext)
        (name : String) (rest : List Token),
        parse_pseudo_element impl context (Token.colon :: Token.colon :: Token.ident name :: rest)
          = (impl.parse_pseudo_element context name).map (fun pe => (some pe, rest)))
    ∧ (∀ (P E : Type) (impl : SelectorImpl P E) (context : ParserContext) (rest : List Token),
        startsWithIdent rest = false →
        parse_pseudo_element impl context (Token.colon :: Token.colon :: rest) = none)
    ∧ (∀ (P E : Type) (impl : SelectorImpl P E) (context : ParserContext) (rest : List Token),
        startsWithIdent rest = false → startsWithColon rest = false →
        parse_pseudo_element impl context (Token.colon :: rest) = none) := by
  refine ⟨?_, ?_, ?_, ?_, ?_, ?_⟩
  · intro P E impl context toks hc
    cases toks with
    | nil => rfl
    | cons t r => cases t <;> simp_all [startsWithColon, parse_pseudo_element]
  · intro P E impl context name rest hleg
    simp [parse_pseudo_element, hleg]
  · intro P E impl context name rest hleg
    cases h : impl.parse_pseudo_element context name <;>
      simp [parse_pseudo_element, hleg, h]
  · intro P E impl context name rest
    cases h : impl.parse_pseudo_element context name <;>
      simp [parse_pseudo_element, h]
  · intro P E impl context rest hi
    cases rest with
    | nil => rfl
    | cons t r => cases t <;> simp_all [startsWithIdent, parse_pseudo_element]
  · intro P E impl context rest hi hc
    cases rest with
    | nil => rfl
    | cons t r => cases t <;> simp_all [startsWithIdent, startsWithColon, parse_pseudo_element]

/-- Witness for C8: the amended theorem applied at concrete runs, giving the
not-applicable outcome on an identifier-headed stream, acceptance of the
legacy name before through the test host, acceptance of the double-colon
form, and hard failures on a non-legacy bare identifier and after a colon
followed by a non-identifier. -/
theorem c8_pseudo_element_shape_witness :
    parse_pseudo_element DummySelectorImpl ParserContext.new [Token.ident "x"]
      = some (none, [Token.ident "x"])
    ∧ parse_pseudo_element DummySelectorImpl ParserContext.new
        [Token.colon, Token.ident "bEfOrE"]
      = some (some PseudoElement.Before, [])
    ∧ parse_pseudo_element DummySelectorImpl ParserContext.new
        [Token.colon, Token.colon, Token.ident "after"]
      = some (some PseudoElement.After, [])
    ∧ parse_pseudo_element DummySelectorImpl ParserContext.new
        [Token.colon, Token.ident "hover"] = none
    ∧ parse_pseudo_element DummySelectorImpl ParserContext.new
        [Token.colon, Token.delim '.'] = none :=
  ⟨c8_pseudo_element_shape.1 PseudoClass PseudoElement DummySelectorImpl ParserContext.new
      [Token.ident "x"] rfl,
   (c8_pseudo_element_shape.2.2.1 PseudoClass PseudoElement DummySelectorImpl ParserContext.new
      "bEfOrE" [] rfl).trans rfl,
   (c8_pseudo_element_shape.2.2.2.1 PseudoClass PseudoElement DummySelectorImpl ParserContext.new
      "after" []).trans rfl,
   c8_pseudo_element_shape.2.1 PseudoClass PseudoElement DummySelectorImpl ParserContext.new
      "hover" [] rfl,
   c8_pseudo_element_shape.2.2.2.2.2 PseudoClass PseudoElement DummySelectorImpl ParserContext.new
      [Token.delim '.'] rfl rfl⟩

/-! ## C10: a universal attribute name is a hard failure -/

/-- Helper: on a bare star (one not followed by a pipe), the qualified name
resolver is a hard failure in attribute-selector position and the default
namespace with a universal local name otherwise. -/
theorem parse_qualified_name_bare_star (context : ParserContext) (in_attr_selector : Bool)
    (rest : List Token) (hpipe : startsWithPipe rest = false) :
    parse_qualified_name context in_attr_selector (Token.delim '*' :: rest)
      = if in_attr_selector then none
        else some (some
          ((match context.default_namespace with
            | some ns => NamespaceConstraint.Specific ns
            | none => NamespaceConstraint.Any), none), rest) := by
  cases rest with
  | nil => cases in_attr_selector <;> rfl
  | cons t r =>
    cases t <;> try (cases in_attr_selector <;> rfl)
    rename_i c
    have hc : (c == '|') = false := by simpa [startsWithPipe] using hpipe
    cases in_attr_selector <;> simp [parse_qualified_name, hc]

/-- C10: inside an attribute selector, a lone star as the attribute name is a
hard failure (not a restore-and-retry outcome), a prefixed universal name
ns|* is likewise a hard failure (whether or not the prefix is declared), and
consequently the whole selector lists for the inputs written [*] and [ns|*]
(the latter under a context declaring the prefix ns) are rejected. -/
theorem c10_universal_attr_name_rejected :
    (∀ (P : Type) (context : ParserContext) (rest : List Token),
        startsWithPipe rest = false →
        parse_attribute_selector (P := P) context (Token.delim '*' :: rest) = none)
    ∧ (∀ (P : Type) (context : ParserContext) (pfx : String) (rest : List Token),
        parse_attribute_selector (P := P) context
          (Token.ident pfx :: Token.delim '|' :: Token.delim '*' :: rest) = none)
    ∧ parse_selector_list DummySelectorImpl ParserContext.new 10
        [Token.squareBracketBlock [Token.delim '*']] = none
    ∧ parse_selector_list DummySelectorImpl
        { in_user_agent_stylesheet := false
          default_namespace := none
          namespace_prefixes := [("ns", "http://ns.example")] } 10
        [Token.squareBracketBlock
          [Token.ident "ns", Token.delim '|', Token.delim '*']] = none := by
  refine ⟨?_, ?_, rfl, rfl⟩
  · intro P context rest hpipe
    dsimp only [parse_attribute_selector]
    rw [parse_qualified_name_bare_star context true rest hpipe]
    simp
  · intro P context pfx rest
    dsimp only [parse_attribute_selector, parse_qualified_name]
    cases List.lookup pfx context.namespace_prefixes <;> rfl

/-- Witness for C10: the hard failure at the concrete attribute-selector
contents written * and ns|* (the latter with the prefix declared). -/
theorem c10_universal_attr_name_rejected_witness :
    parse_attribute_selector (P := PseudoClass) ParserContext.new [Token.delim '*'] = none
    ∧ parse_attribute_selector (P := PseudoClass)
        { in_user_agent_stylesheet := false
          default_namespace := none
          namespace_prefixes := [("ns", "http://ns.example")] }
        [Token.ident "ns", Token.delim '|', Token.delim '*'] = none :=
  ⟨c10_universal_attr_name_rejected.1 PseudoClass ParserContext.new [] rfl,
   c10_universal_attr_name_rejected.2.1 PseudoClass _ "ns" []⟩

/-! ## C2: negation contributes the maximum of its alternatives -/

/-- C2: when the specificity walk reaches a Negation simple selector, it
computes the specificity of every alternative independently, takes the
maximum of those values and adds it (not their sum) to the accumulator
before continuing; concretely, the parse of :not(.babybel, .provel) yields a
single Negation wrapping the two single-class alternatives and its
specificity is the packed (0, 1, 0) - a class-like contribution of one, not
two. -/
theorem c2_negation_takes_maximum :
    (∀ (P : Type) (alts : List (ComplexSelector P)) (rest : List (SimpleSelector P))
        (acc : UnpackedSpecificity) (specs : List UnpackedSpecificity)
        (m : UnpackedSpecificity),
        negation_specificities alts = some specs →
        iterMax specs = some m →
        compound_selector_specificity (SimpleSelector.Negation alts :: rest) acc
          = compound_selector_specificity rest (acc + m))
    ∧ parse_selector_list DummySelectorImpl ParserContext.new 10
        [Token.colon, Token.function "not"
          [Token.delim '.', Token.ident "babybel", Token.comma,
           Token.whiteSpace, Token.delim '.', Token.ident "provel"]]
      = some [{ complex_selector := ComplexSelector.mk
                  [SimpleSelector.Negation
                    [ComplexSelector.mk [SimpleSelector.Class "babybel"] none,
                     ComplexSelector.mk [SimpleSelector.Class "provel"] none]] none
                pseudo_element := none
                specificity := Specificity.fromUnpacked ⟨0, 1, 0⟩ }] := by
  refine ⟨?_, rfl⟩
  intro P alts rest acc specs m h1 h2
  simp only [compound_selector_specificity, h1, h2]

/-- Witness for C2: the general statement applied to a concrete negation
with alternatives of specificities (0, 1, 0) and (1, 0, 0): the maximum
(1, 0, 0) is added to the accumulator, not the sum (1, 1, 0). -/
theorem c2_negation_takes_maximum_witness :
    compound_selector_specificity
        (SimpleSelector.Negation (P := PseudoClass)
          [ComplexSelector.mk [SimpleSelector.Class "x"] none,
           ComplexSelector.mk [SimpleSelector.ID "y"] none] :: [])
        UnpackedSpecificity.zero
      = some ⟨1, 0, 0⟩ :=
  (c2_negation_takes_maximum.1 PseudoClass
      [ComplexSelector.mk [SimpleSelector.Class "x"] none,
       ComplexSelector.mk [SimpleSelector.ID "y"] none]
      [] UnpackedSpecificity.zero [⟨0, 1, 0⟩, ⟨1, 0, 0⟩] ⟨1, 0, 0⟩ rfl rfl).trans rfl

/-! ## C3: where an empty compound selector can appear -/

/-- Helper: a chain whose nodes are all nonempty in particular has a
nonempty tail. -/
theorem tailAllNonempty_of_chainAllNonempty {P : Type} (c : ComplexSelector P)
    (h : chainAllNonempty c = true) : tailAllNonempty c = true := by
  cases c with
  | mk compound next =>
    cases next with
    | none => rfl
    | some p =>
      cases p with
      | mk n comb =>
        simp only [chainAllNonempty, Bool.and_eq_true] at h
        simpa [tailAllNonempty] using h.2

/-- Helper: the combinator loop preserves the chain invariant: starting from
a chain whose nodes are all nonempty, the resulting chain has nonempty
compounds at every node except possibly the head (the loop stops right after
linking in an empty compound). -/
theorem complex_loop_tailAllNonempty {P : Type}
    (pcompound : List Token → Option (List (SimpleSelector P) × List Token)) :
    ∀ (fuel : Nat) (complex c : ComplexSelector P) (toks rest : List Token),
      chainAllNonempty complex = true →
      complex_loop pcompound fuel complex toks = some (c, rest) →
      tailAllNonempty c = true := by
  intro fuel
  induction fuel with
  | zero =>
    intro complex c toks rest hinv h
    simp [complex_loop] at h
  | succ fuel ih =>
    intro complex c toks rest hinv h
    rw [complex_loop] at h
    cases hfc : find_combinator toks false with
    | mk combOpt rest1 =>
      rw [hfc] at h
      cases combOpt with
      | none =>
        simp only [Option.some.injEq, Prod.mk.injEq] at h
        obtain ⟨rfl, rfl⟩ := h
        exact tailAllNonempty_of_chainAllNonempty complex hinv
      | some combinator =>
        simp only at h
        cases hpc : pcompound
            (if combinator ≠ Combinator.Descendant then skip_whitespace rest1 else rest1) with
        | none => rw [hpc] at h; exact absurd h (by simp)
        | some pr =>
          obtain ⟨compound, rest2⟩ := pr
          rw [hpc] at h
          by_cases hempty : compound.isEmpty
          · simp only [hempty, if_true, Option.some.injEq, Prod.mk.injEq] at h
            obtain ⟨rfl, rfl⟩ := h
            simpa [tailAllNonempty] using hinv
          · simp only [hempty, if_false, Bool.false_eq_true] at h
            refine ih (ComplexSelector.mk compound (some (complex, combinator))) c _ rest ?_ h
            simp [chainAllNonempty, hinv]
            simpa using hempty

/-- Helper: a successfully parsed complex selector has nonempty compounds at
every node except possibly the head. -/
theorem parse_complex_selector_tailAllNonempty {P E : Type} (impl : SelectorImpl P E)
    (context : ParserContext) (fuel : Nat) (toks rest : List Token)
    (c : ComplexSelector P)
    (h : parse_complex_selector impl context fuel toks = some (c, rest)) :
    tailAllNonempty c = true := by
  cases fuel with
  | zero => simp [parse_complex_selector] at h
  | succ fuel =>
    rw [parse_complex_selector] at h
    cases hpc : parse_compound_selector impl context
        (fun t => parse_complex_selector impl context fuel t) fuel
        (skip_whitespace toks) with
    | none => rw [hpc] at h; exact absurd h (by simp)
    | some pr =>
      obtain ⟨compound, rest1⟩ := pr
      rw [hpc] at h
      by_cases hempty : compound.isEmpty
      · simp only [hempty, if_true, Option.some.injEq, Prod.mk.injEq] at h
        obtain ⟨rfl, rfl⟩ := h
        rfl
      · simp only [hempty, if_false, Bool.false_eq_true] at h
        refine complex_loop_tailAllNonempty _ fuel
          (ComplexSelector.mk compound none) c rest1 rest ?_ h
        simp [chainAllNonempty]
        simpa using hempty

/-- C3 counterexample: the claim says an empty compound_selector occurs only
as the sole, rightmost node. The selector written div ::after parses
successfully into a chain whose rightmost node has an empty compound
selector while its next link is present (the chain also contains the div
node), so the empty compound is rightmost but not sole. -/
theorem c3_counterexample_empty_compound_not_sole :
    (parse_selector DummySelectorImpl ParserContext.new 10
        [Token.ident "div", Token.whiteSpace, Token.colon, Token.colon, Token.ident "after"])
      = some ({ complex_selector := ComplexSelector.mk []
                  (some (ComplexSelector.mk
                    [SimpleSelector.LocalName ⟨"div", "div"⟩] none, Combinator.Descendant))
                pseudo_element := some PseudoElement.After
                specificity := Specificity.fromUnpacked ⟨0, 0, 2⟩ }, []) :=
  rfl

/-- C3 amended: in every successfully parsed selector, a node with
next = None is the terminal (leftmost) node of the chain; every node other
than the rightmost (head) node has a nonempty compound_selector; and the
rightmost compound_selector is empty only when the selector carries a
pseudo-element. -/
theorem c3_empty_compound_rightmost_with_pseudo_element :
    ∀ (P E : Type) (impl : SelectorImpl P E) (context : ParserContext) (fuel : Nat)
      (toks rest : List Token) (sel : Selector P E),
      parse_selector impl context fuel toks = some (sel, rest) →
      tailAllNonempty sel.complex_selector = true
      ∧ (sel.complex_selector.compound_selector.isEmpty = true →
          sel.pseudo_element.isSome = true) := by
  intro P E impl context fuel toks rest sel h
  dsimp only [parse_selector] at h
  cases hpc : parse_complex_selector impl context fuel toks with
  | none => rw [hpc] at h; exact absurd h (by simp)
  | some pr =>
    obtain ⟨complex, rest1⟩ := pr
    rw [hpc] at h
    cases hpe : parse_pseudo_element impl context rest1 with
    | none => simp only [hpe] at h; exact absurd h (by simp)
    | some pr2 =>
      obtain ⟨pseudo_element, rest2⟩ := pr2
      simp only [hpe] at h
      by_cases hcond : (!complex.compound_selector.isEmpty || pseudo_element.isSome) = true
      · rw [if_pos hcond] at h
        cases hs : specificity complex pseudo_element with
        | none => rw [hs] at h; exact absurd h (by simp)
        | some s =>
          rw [hs] at h
          simp only [Option.some.injEq, Prod.mk.injEq] at h
          obtain ⟨rfl, rfl⟩ := h
          refine ⟨parse_complex_selector_tailAllNonempty impl context fuel toks rest1
            complex hpc, fun hempty => ?_⟩
          simp only [hempty] at hcond
          simpa using hcond
      · rw [if_neg hcond] at h
        exact absurd h (by simp)

/-! ## C9: every parsed Negation has at least one alternative -/

/-- Helper: negOkAlts holds when every alternative satisfies negOkComplex. -/
theorem negOkAlts_of_forall {P : Type} (l : List (ComplexSelector P))
    (h : ∀ c ∈ l, negOkComplex c = true) : negOkAlts l = true := by
  induction l with
  | nil => rfl
  | cons c rest ih =>
    simp only [negOkAlts, Bool.and_eq_true]
    exact ⟨h c (by simp), ih (fun c2 hc2 => h c2 (by simp [hc2]))⟩

/-- Helper: negOkList distributes over list append. -/
theorem negOkList_append {P : Type} (a b : List (SimpleSelector P)) :
    negOkList (a ++ b) = (negOkList a && negOkList b) := by
  induction a with
  | nil => simp [negOkList]
  | cons s rest ih => simp [negOkList, ih, Bool.and_assoc]

/-- Helper: a successful parse_comma_separated returns a nonempty list whose
every element comes from a successful run of the item parser, so any
property of all item-parser results holds of all list elements. -/
theorem parse_comma_separated_sound {α : Type} (f : List Token → Option (α × List Token))
    (Q : α → Prop) (hf : ∀ toks v r, f toks = some (v, r) → Q v) :
    ∀ (fuel : Nat) (toks : List Token) (l : List α),
      parse_comma_separated f fuel toks = some l → l ≠ [] ∧ ∀ v ∈ l, Q v := by
  intro fuel
  induction fuel with
  | zero =>
    intro toks l h
    simp [parse_comma_separated] at h
  | succ fuel ih =>
    intro toks l h
    rw [parse_comma_separated] at h
    cases hsp : splitAtComma toks with
    | mk chunk after =>
      rw [hsp] at h
      dsimp only at h
      cases hfc : f chunk with
      | none => rw [hfc] at h; exact absurd h (by simp)
      | some vr =>
        obtain ⟨v, leftover⟩ := vr
        rw [hfc] at h
        dsimp only at h
        by_cases hex : exhausted leftover = true
        · rw [if_pos hex] at h
          cases after with
          | none =>
            dsimp only at h
            simp only [Option.some.injEq] at h
            subst h
            exact ⟨by simp, by simpa using hf chunk v leftover hfc⟩
          | some rest =>
            dsimp only at h
            cases hrec : parse_comma_separated f fuel rest with
            | none => rw [hrec] at h; exact absurd h (by simp)
            | some vs =>
              rw [hrec] at h
              simp only [Option.some.injEq] at h
              subst h
              obtain ⟨-, hall⟩ := ih rest vs hrec
              refine ⟨by simp, ?_⟩
              intro w hw
              rcases List.mem_cons.mp hw with rfl | hw2
              · exact hf chunk w leftover hfc
              · exact hall w hw2
        · rw [if_neg hex] at h
          exact absurd h (by simp)

/-- Helper: every simple selector emitted by parse_type_selector is a
Namespace or LocalName selector, which trivially satisfies negOkSimple. -/
theorem parse_type_selector_negOk {P : Type} (context : ParserContext)
    (toks rest : List Token) (opt : Option (List (SimpleSelector P)))
    (h : parse_type_selector (P := P) context toks = some (opt, rest)) :
    negOkList (opt.getD []) = true := by
  dsimp only [parse_type_selector] at h
  cases hq : parse_qualified_name context false toks with
  | none => rw [hq] at h; exact absurd h (by simp)
  | some pr =>
    obtain ⟨onl, rest1⟩ := pr
    rw [hq] at h
    cases onl with
    | none =>
      simp only [Option.some.injEq, Prod.mk.injEq] at h
      obtain ⟨rfl, rfl⟩ := h
      rfl
    | some nl =>
      obtain ⟨namespace_, local_name⟩ := nl
      simp only [Option.some.injEq, Prod.mk.injEq] at h
      obtain ⟨rfl, rfl⟩ := h
      cases namespace_ <;> cases local_name <;> simp [negOkList, negOkSimple]

/-- Helper: every simple selector emitted by parse_attribute_selector is an
attribute selector variant, which trivially satisfies negOkSimple. -/
theorem parse_attribute_selector_negOk {P : Type} (context : ParserContext)
    (toks rest : List Token) (s : SimpleSelector P)
    (h : parse_attribute_selector (P := P) context toks = some (s, rest)) :
    negOkSimple s = true := by
  dsimp only [parse_attribute_selector] at h
  repeat' split at h
  all_goals simp_all [negOkSimple]
  all_goals (obtain ⟨h1, -⟩ := h; subst h1; rfl)

/-- Helper: every simple selector emitted by parse_simple_pseudo_class is a
structural or host pseudo-class, which trivially satisfies negOkSimple. -/
theorem parse_simple_pseudo_class_negOk {P E : Type} (impl : SelectorImpl P E)
    (context : ParserContext) (name : String) (s : SimpleSelector P)
    (h : parse_simple_pseudo_class impl context name = some s) :
    negOkSimple s = true := by
  dsimp only [parse_simple_pseudo_class] at h
  repeat' split at h
  all_goals simp_all [negOkSimple, Option.map_eq_some']
  all_goals first
    | (subst h; rfl)
    | (obtain ⟨p, -, rfl⟩ := h; rfl)

/-- Helper: every simple selector emitted by parse_functional_pseudo_class
satisfies negOkSimple, provided every complex selector produced by the
recursive sub-parser pcs satisfies negOkComplex; in particular a parsed
Negation always carries at least one alternative, because
parse_comma_separated always returns a nonempty list. -/
theorem parse_functional_pseudo_class_negOk {P E : Type} (impl : SelectorImpl P E)
    (pcs : List Token → Option (ComplexSelector P × List Token)) (fuel : Nat)
    (name : String) (toks rest : List Token) (s : SimpleSelector P)
    (hpcs : ∀ t c r, pcs t = some (c, r) → negOkComplex c = true)
    (h : parse_functional_pseudo_class impl pcs fuel name toks = some (s, rest)) :
    negOkSimple s = true := by
  dsimp only [parse_functional_pseudo_class, parse_nth_pseudo_class] at h
  repeat' split at h
  all_goals try (exact Option.noConfusion h)
  all_goals try (simp only [Option.some.injEq, Prod.mk.injEq] at h; obtain ⟨hs, -⟩ := h; subst hs; rfl)
  dsimp only [parse_negation] at h
  cases hcs : parse_comma_separated pcs fuel toks with
  | none => rw [hcs] at h; exact absurd h (by simp)
  | some alts =>
    rw [hcs] at h
    simp only [Option.some.injEq, Prod.mk.injEq] at h
    obtain ⟨hs, -⟩ := h
    subst hs
    obtain ⟨hne, hall⟩ := parse_comma_separated_sound pcs
      (fun c => negOkComplex c = true)
      (fun t c r hc => hpcs t c r hc) fuel toks alts hcs
    simp only [negOkSimple, Bool.and_eq_true]
    exact ⟨by simpa using hne, negOkAlts_of_forall alts hall⟩

/-- Helper: every simple selector emitted by parse_one_simple_selector
satisfies negOkSimple, provided the recursive sub-parser pcs only produces
complex selectors satisfying negOkComplex. -/
theorem parse_one_simple_selector_negOk {P E : Type} (impl : SelectorImpl P E)
    (context : ParserContext)
    (pcs : List Token → Option (ComplexSelector P × List Token)) (fuel : Nat)
    (toks rest : List Token) (s : SimpleSelector P)
    (hpcs : ∀ t c r, pcs t = some (c, r) → negOkComplex c = true)
    (h : parse_one_simple_selector impl context pcs fuel toks = some (some s, rest)) :
    negOkSimple s = true := by
  dsimp only [parse_one_simple_selector] at h
  repeat' split at h
  all_goals try (exact Option.noConfusion h)
  all_goals simp only [Option.some.injEq, Prod.mk.injEq] at h
  all_goals obtain ⟨hs, -⟩ := h
  all_goals try (exact Option.noConfusion hs)
  all_goals subst hs
  all_goals first
    | rfl
    | (exact parse_attribute_selector_negOk _ _ _ _ (by assumption))
    | (exact parse_simple_pseudo_class_negOk _ _ _ _ (by assumption))
    | (exact parse_functional_pseudo_class_negOk _ _ _ _ _ _ _ hpcs (by assumption))

/-- Helper: the compound-selector loop preserves negOkList of the
accumulator, given that the simple-selector parser only emits simple
selectors satisfying negOkSimple. -/
theorem compound_loop_negOk {P : Type}
    (p1 : List Token → Option (Option (SimpleSelector P) × List Token))
    (hp1 : ∀ toks s rest, p1 toks = some (some s, rest) → negOkSimple s = true) :
    ∀ (fuel : Nat) (acc : List (SimpleSelector P)) (toks : List Token)
      (l : List (SimpleSelector P)) (rest : List Token),
      negOkList acc = true →
      compound_loop p1 fuel acc toks = some (l, rest) →
      negOkList l = true := by
  intro fuel
  induction fuel with
  | zero =>
    intro acc toks l rest hacc h
    simp [compound_loop] at h
  | succ fuel ih =>
    intro acc toks l rest hacc h
    rw [compound_loop] at h
    cases hp : p1 toks with
    | none => rw [hp] at h; exact absurd h (by simp)
    | some pr =>
      obtain ⟨os, rest1⟩ := pr
      rw [hp] at h
      cases os with
      | none =>
        simp only [Option.some.injEq, Prod.mk.injEq] at h
        obtain ⟨rfl, rfl⟩ := h
        exact hacc
      | some s =>
        refine ih (acc ++ [s]) rest1 l rest ?_ h
        rw [negOkList_append]
        simp [hacc, negOkList, hp1 toks s rest1 hp]

/-- Helper: a successfully parsed compound selector consists of simple
selectors satisfying negOkSimple, given that pcs only produces complex
selectors satisfying negOkComplex. -/
theorem parse_compound_selector_negOk {P E : Type} (impl : SelectorImpl P E)
    (context : ParserContext)
    (pcs : List Token → Option (ComplexSelector P × List Token)) (fuel : Nat)
    (toks rest : List Token) (l : List (SimpleSelector P))
    (hpcs : ∀ t c r, pcs t = some (c, r) → negOkComplex c = true)
    (h : parse_compound_selector impl context pcs fuel toks = some (l, rest)) :
    negOkList l = true := by
  dsimp only [parse_compound_selector] at h
  cases hts : parse_type_selector (P := P) context toks with
  | none => rw [hts] at h; exact absurd h (by simp)
  | some pr =>
    obtain ⟨opt, rest1⟩ := pr
    rw [hts] at h
    exact compound_loop_negOk (parse_one_simple_selector impl context pcs fuel)
      (fun t s r hs => parse_one_simple_selector_negOk impl context pcs fuel t r s hpcs hs)
      fuel (opt.getD []) rest1 l rest
      (parse_type_selector_negOk context toks rest1 opt hts) h

/-- Helper: the combinator loop preserves negOkComplex, given that the
compound parser only emits lists satisfying negOkList. -/
theorem complex_loop_negOk {P : Type}
    (pcompound : List Token → Option (List (SimpleSelector P) × List Token))
    (hpc : ∀ toks l rest, pcompound toks = some (l, rest) → negOkList l = true) :
    ∀ (fuel : Nat) (complex c : ComplexSelector P) (toks rest : List Token),
      negOkComplex complex = true →
      complex_loop pcompound fuel complex toks = some (c, rest) →
      negOkComplex c = true := by
  intro fuel
  induction fuel with
  | zero =>
    intro complex c toks rest hinv h
    simp [complex_loop] at h
  | succ fuel ih =>
    intro complex c toks rest hinv h
    rw [complex_loop] at h
    cases hfc : find_combinator toks false with
    | mk combOpt rest1 =>
      rw [hfc] at h
      cases combOpt with
      | none =>
        simp only [Option.some.injEq, Prod.mk.injEq] at h
        obtain ⟨rfl, rfl⟩ := h
        exact hinv
      | some combinator =>
        simp only at h
        cases hcomp : pcompound
            (if combinator ≠ Combinator.Descendant then skip_whitespace rest1 else rest1) with
        | none => rw [hcomp] at h; exact absurd h (by simp)
        | some pr =>
          obtain ⟨compound, rest2⟩ := pr
          rw [hcomp] at h
          have hgood : negOkComplex (ComplexSelector.mk compound (some (complex, combinator)))
              = true := by
            simp only [negOkComplex, negOkNext, Bool.and_eq_true]
            exact ⟨hpc _ compound rest2 hcomp, hinv⟩
          by_cases hempty : compound.isEmpty
          · simp only [hempty, if_true, Option.some.injEq, Prod.mk.injEq] at h
            obtain ⟨rfl, rfl⟩ := h
            exact hgood
          · simp only [hempty, if_false, Bool.false_eq_true] at h
            exact ih (ComplexSelector.mk compound (some (complex, combinator))) c rest2 rest
              hgood h

/-- Helper: every successfully parsed complex selector satisfies
negOkComplex: every Negation anywhere inside it has a nonempty alternatives
list. -/
theorem parse_complex_selector_negOk {P E : Type} (impl : SelectorImpl P E)
    (context : ParserContext) :
    ∀ (fuel : Nat) (toks rest : List Token) (c : ComplexSelector P),
      parse_complex_selector impl context fuel toks = some (c, rest) →
      negOkComplex c = true := by
  intro fuel
  induction fuel with
  | zero =>
    intro toks rest c h
    simp [parse_complex_selector] at h
  | succ fuel ih =>
    intro toks rest c h
    rw [parse_complex_selector] at h
    have hpcs : ∀ t c2 r, parse_complex_selector impl context fuel t = some (c2, r) →
        negOkComplex c2 = true := fun t c2 r hh => ih t r c2 hh
    cases hpc : parse_compound_selector impl context
        (fun t => parse_complex_selector impl context fuel t) fuel
        (skip_whitespace toks) with
    | none => rw [hpc] at h; exact absurd h (by simp)
    | some pr =>
      obtain ⟨compound, rest1⟩ := pr
      rw [hpc] at h
      have hcgood : negOkList compound = true :=
        parse_compound_selector_negOk impl context _ fuel (skip_whitespace toks) rest1
          compound (fun t c2 r hh => hpcs t c2 r hh) hpc
      by_cases hempty : compound.isEmpty
      · simp only [hempty, if_true, Option.some.injEq, Prod.mk.injEq] at h
        obtain ⟨rfl, rfl⟩ := h
        simp [negOkComplex, negOkNext, hcgood]
      · simp only [hempty, if_false, Bool.false_eq_true] at h
        refine complex_loop_negOk _
          (fun t l r hh => parse_compound_selector_negOk impl context _ fuel t r l
            (fun t2 c2 r2 hh2 => hpcs t2 c2 r2 hh2) hh)
          fuel (ComplexSelector.mk compound none) c rest1 rest ?_ h
        simp [negOkComplex, negOkNext, hcgood]

/-- C9: every Negation simple selector anywhere inside a successfully parsed
selector has at least one alternative, and on every parser-produced selector
the specificity computation is total: the iterator maximum over the negation
alternatives exists, so the unwrap in complex_selector_specificity is never
reached. -/
theorem c9_parsed_negations_nonempty_specificity_total :
    ∀ (P E : Type) (impl : SelectorImpl P E) (context : ParserContext) (fuel : Nat)
      (toks rest : List Token) (sel : Selector P E),
      parse_selector impl context fuel toks = some (sel, rest) →
      negOkComplex sel.complex_selector = true
      ∧ (complex_selector_specificity sel.complex_selector).isSome = true := by
  intro P E impl context fuel toks rest sel h
  dsimp only [parse_selector] at h
  cases hpc : parse_complex_selector impl context fuel toks with
  | none => rw [hpc] at h; exact absurd h (by simp)
  | some pr =>
    obtain ⟨complex, rest1⟩ := pr
    rw [hpc] at h
    dsimp only at h
    cases hpe : parse_pseudo_element impl context rest1 with
    | none => rw [hpe] at h; exact absurd h (by simp)
    | some pr2 =>
      obtain ⟨pseudo_element, rest2⟩ := pr2
      rw [hpe] at h
      dsimp only at h
      by_cases hcond : (!complex.compound_selector.isEmpty || pseudo_element.isSome) = true
      · rw [if_pos hcond] at h
        cases hs : specificity complex pseudo_element with
        | none => rw [hs] at h; exact absurd h (by simp)
        | some spec =>
          rw [hs] at h
          simp only [Option.some.injEq, Prod.mk.injEq] at h
          obtain ⟨rfl, rfl⟩ := h
          refine ⟨parse_complex_selector_negOk impl context fuel toks rest1 complex hpc, ?_⟩
          dsimp only [specificity] at hs
          cases hcss : complex_selector_specificity complex with
          | none => rw [hcss] at hs; exact absurd hs (by simp)
          | some u => simp
      · rw [if_neg hcond] at h
        exact absurd h (by simp)

/-- Witness for C9 at the concrete parse of :not(.a): the parsed tree
satisfies the negation invariant and its specificity computation succeeds. -/
theorem c9_parsed_negations_nonempty_specificity_total_witness :
    negOkComplex (ComplexSelector.mk
        [SimpleSelector.Negation (P := PseudoClass)
          [ComplexSelector.mk [SimpleSelector.Class "a"] none]] none) = true
    ∧ (complex_selector_specificity (ComplexSelector.mk
        [SimpleSelector.Negation (P := PseudoClass)
          [ComplexSelector.mk [SimpleSelector.Class "a"] none]] none)).isSome = true := by
  have h := c9_parsed_negations_nonempty_specificity_total PseudoClass PseudoElement
    DummySelectorImpl ParserContext.new 10
    [Token.colon, Token.function "not" [Token.delim '.', Token.ident "a"]] []
    { complex_selector := ComplexSelector.mk
        [SimpleSelector.Negation [ComplexSelector.mk [SimpleSelector.Class "a"] none]] none
      pseudo_element := none
      specificity := Specificity.fromUnpacked ⟨0, 1, 0⟩ }
    rfl
  exact h

/-- Witness for the amended C3 at the concrete parse of div ::after: the
theorem instantiated there shows the tail of the chain is nonempty and an
empty rightmost compound comes with a pseudo-element. -/
theorem c3_empty_compound_rightmost_with_pseudo_element_witness :
    tailAllNonempty (ComplexSelector.mk ([] : List (SimpleSelector PseudoClass))
        (some (ComplexSelector.mk [SimpleSelector.LocalName ⟨"div", "div"⟩] none,
          Combinator.Descendant))) = true
    ∧ (([] : List (SimpleSelector PseudoClass)).isEmpty = true →
        (some PseudoElement.After).isSome = true) :=
  c3_empty_compound_rightmost_with_pseudo_element PseudoClass PseudoElement
    DummySelectorImpl ParserContext.new 10
    [Token.ident "div", Token.whiteSpace, Token.colon, Token.colon, Token.ident "after"] []
    { complex_selector := ComplexSelector.mk []
        (some (ComplexSelector.mk [SimpleSelector.LocalName ⟨"div", "div"⟩] none,
          Combinator.Descendant))
      pseudo_element := some PseudoElement.After
      specificity := Specificity.fromUnpacked ⟨0, 0, 2⟩ }
    rfl
